import Mathlib

/-!
Verification development for the blog application
(React/TypeScript frontend, FastAPI backend, MySQL store).

The frontend definitions are embedded from the TypeScript sources under
`frontend/src`.  The backend request handlers (post service, engagement
service, auth service) are not part of the available sources — only their
REST callers, response types and documentation are — so each backend
operation is modelled from the specification; such definitions carry a
`Modelled from the spec:` doc comment naming the missing handler.

JavaScript strings are modelled as Lean `String`s; `s.slice(0, n)` is
modelled as taking the first `n` characters of the underlying character
list, which agrees with JavaScript on all inputs the application handles.
Timestamps are modelled as natural numbers, database rows as Lean
structures, and tables as lists of rows.
-/

namespace BlogApp

/-! ## Text utilities

`Write.tsx` strips HTML with the regex replace
`content.replace(/<[^>]*>/g, '')`, and the backend is specified to count
the words of the tag-stripped content.  `stripHtmlAux` mirrors the global
regex replace: at a `<`, if some `>` follows then the whole `<...>` span
is dropped (everything up to and including the first `>`), otherwise the
regex cannot match again and the rest of the text is kept verbatim. -/

def stripHtmlAux (acc : List Char) : List Char → List Char
  | [] => acc.reverse
  | c :: cs =>
    if c = '<' then
      if '>' ∈ cs then stripHtmlAux acc ((cs.dropWhile (fun d => d ≠ '>')).tail)
      else acc.reverse ++ c :: cs
    else stripHtmlAux (c :: acc) cs
termination_by l => l.length
decreasing_by
  · have hle : (cs.dropWhile (fun d => d ≠ '>')).length ≤ cs.length :=
      (List.dropWhile_sublist _).length_le
    have ht : ((cs.dropWhile (fun d => d ≠ '>')).tail).length
        ≤ (cs.dropWhile (fun d => d ≠ '>')).length := by
      cases cs.dropWhile (fun d => d ≠ '>') <;> simp
    simp only [List.length_cons]
    omega
  · simp only [List.length_cons]
    omega

/-- HTML tag removal, as the regex replace `/<[^>]*>/g → ''`. -/
def stripHtml (s : String) : String :=
  ⟨stripHtmlAux [] s.data⟩

/-- Counts maximal whitespace-separated character runs; the `inWord` flag
records whether the previous character belonged to a word. -/
def countWordsAux (acc : Nat) : Bool → List Char → Nat
  | _, [] => acc
  | inWord, c :: cs =>
    if c.isWhitespace then countWordsAux acc false cs
    else countWordsAux (if inWord then acc else acc + 1) true cs

/-- Number of whitespace-separated words in a string. -/
def wordCount (s : String) : Nat :=
  countWordsAux 0 false s.data

/-- The JavaScript `s.slice(0, n)`: the first `n` characters of `s`. -/
def strSlice (s : String) (n : Nat) : String :=
  ⟨s.data.take n⟩

/-- JavaScript `a || b` on strings: the empty string is falsy. -/
def orElse (a b : String) : String :=
  if a = "" then b else a

/-- Modelled from the spec: the backend post service (its handler is not
in the available sources) computes
`read_time = max(1, ceil(wordCount / 200))` over the word count of the
tag-stripped content; `(w + 199) / 200` is the ceiling of `w / 200`. -/
def readTime (content : String) : Nat :=
  max 1 ((wordCount (stripHtml content) + 199) / 200)

/-- Modelled from the spec: the backend post service computes the excerpt
as the first 150 characters of the tag-stripped content when none is
supplied. -/
def defaultExcerpt (content : String) : String :=
  strSlice (stripHtml content) 150

/-- The characters of the repeated chunk `"<p>word "` of the read-time
scenario. -/
def tagChunk : List Char := ['<', 'p', '>', 'w', 'o', 'r', 'd', ' ']

/-- The visible characters `"word "` left of one chunk after stripping. -/
def wordChunk : List Char := ['w', 'o', 'r', 'd', ' ']

/-- The reversal of `wordChunk`, as accumulated by `stripHtmlAux`. -/
def wordRev : List Char := [' ', 'd', 'r', 'o', 'w']

/-- The content of the read-time scenario: `"<p>word "` repeated 300
times, i.e. 300 visible words. -/
def scenarioContent : String :=
  String.join (List.replicate 300 "<p>word ")

/-! ## Error taxonomy (spec §7) -/

inductive ApiError where
  | NotFound
  | Forbidden
  | Unauthorized
  | ValidationError
  | Conflict
  deriving DecidableEq

/-! ## Post service (spec §4.2; backend handlers not in the available
sources, modelled from the spec) -/

structure Post where
  id : Nat
  author_id : Nat
  title : String
  content : String
  excerpt : String
  read_time : Nat
  is_draft : Bool
  published_at : Option Nat
  deriving DecidableEq

structure PostsDb where
  posts : List Post
  nextId : Nat
  deriving DecidableEq

def emptyDb : PostsDb := ⟨[], 1⟩

structure CreateArgs where
  authorId : Nat
  title : String
  content : String
  excerpt : Option String
  isDraft : Bool
  now : Nat
  deriving DecidableEq

/-- Modelled from the spec: backend `createPost` — computes `read_time`
from the stripped word count, defaults the excerpt to the first 150
stripped characters, and sets `published_at = now` exactly when the post
is created published. -/
def createPost (db : PostsDb) (a : CreateArgs) : PostsDb × Post :=
  let p : Post :=
    { id := db.nextId
      author_id := a.authorId
      title := a.title
      content := a.content
      excerpt := a.excerpt.getD (defaultExcerpt a.content)
      read_time := readTime a.content
      is_draft := a.isDraft
      published_at := if a.isDraft then none else some a.now }
  (⟨db.posts ++ [p], db.nextId + 1⟩, p)

structure UpdateArgs where
  postId : Nat
  callerId : Nat
  title : Option String
  content : Option String
  excerpt : Option String
  isDraft : Option Bool
  now : Nat
  deriving DecidableEq

/-- Modelled from the spec: the field update applied by backend
`updatePost` — recomputes `read_time` and the excerpt when the content
changes, and sets `published_at` on the first draft→published transition
only (never resetting an already-set value). -/
def applyUpdate (p : Post) (u : UpdateArgs) : Post :=
  { p with
    title := u.title.getD p.title
    content := u.content.getD p.content
    read_time :=
      match u.content with
      | some c => readTime c
      | none => p.read_time
    excerpt :=
      match u.content with
      | some c => u.excerpt.getD (defaultExcerpt c)
      | none => u.excerpt.getD p.excerpt
    is_draft := u.isDraft.getD p.is_draft
    published_at :=
      if u.isDraft.getD p.is_draft = false ∧ p.published_at = none then some u.now
      else p.published_at }

/-- Modelled from the spec: backend `updatePost(postId, callerId, fields)`
— `NotFound` if the post is absent, `Forbidden` if the caller is not the
author, otherwise replaces the row by `applyUpdate`. -/
def updatePost (db : PostsDb) (u : UpdateArgs) : Except ApiError (PostsDb × Post) :=
  match db.posts.find? (fun p => p.id = u.postId) with
  | none => .error .NotFound
  | some p =>
    if p.author_id ≠ u.callerId then .error .Forbidden
    else
      let p' := applyUpdate p u
      .ok (⟨db.posts.map (fun q => if q.id = u.postId then p' else q), db.nextId⟩, p')

/-- Modelled from the spec: backend `getPost(postId, callerId?)` — returns
the post regardless of draft state when the caller is the author;
otherwise fails with `NotFound` when the post is a draft or unpublished. -/
def getPost (db : PostsDb) (postId : Nat) (callerId : Option Nat) : Except ApiError Post :=
  match db.posts.find? (fun p => p.id = postId) with
  | none => .error .NotFound
  | some p =>
    if callerId = some p.author_id then .ok p
    else if p.is_draft = true ∨ p.published_at = none then .error .NotFound
    else .ok p

/-- A write operation against the posts table. -/
inductive PostOp where
  | create (a : CreateArgs)
  | update (u : UpdateArgs)

/-- One step of the post-service state machine; a failed update leaves
the table unchanged. -/
def applyOp (db : PostsDb) : PostOp → PostsDb
  | .create a => (createPost db a).1
  | .update u =>
    match updatePost db u with
    | .ok (db', _) => db'
    | .error _ => db

/-- The table reached from the empty database by a sequence of
create/update operations. -/
def runOps (ops : List PostOp) : PostsDb :=
  ops.foldl applyOp emptyDb

/-! ## Engagement service (spec §4.3; backend handler not in the
available sources, modelled from the spec).  The likes table is a list of
`(post_id, user_id)` rows with a unique constraint on the pair. -/

structure LikeStatus where
  is_liked : Bool
  likes_count : Nat
  deriving DecidableEq

/-- The live count of Like rows for a post (`COUNT(*)` over the table). -/
def likesCount (likes : List (Nat × Nat)) (postId : Nat) : Nat :=
  likes.countP (fun e => e.1 = postId)

/-- Modelled from the spec: backend `toggleLike(postId, userId)` — if a
Like row exists for the pair it is deleted and `is_liked:false` returned,
otherwise the row is inserted and `is_liked:true` returned; `likes_count`
is recomputed live on every call. -/
def toggleLike (likes : List (Nat × Nat)) (postId userId : Nat) :
    List (Nat × Nat) × LikeStatus :=
  if (postId, userId) ∈ likes then
    let likes' := likes.filter (fun e => e ≠ (postId, userId))
    (likes', ⟨false, likesCount likes' postId⟩)
  else
    let likes' := (postId, userId) :: likes
    (likes', ⟨true, likesCount likes' postId⟩)

/-! ## Public feed pagination (spec §4.2 `listPublicPosts`; backend
handler not in the available sources, modelled from the spec).  The feed
is the published posts ordered by `published_at` descending; the sort is
modelled by insertion sort on the publication key. -/

/-- Sort key: the publication timestamp (drafts never reach the feed). -/
def publishedKey (p : Post) : Nat :=
  p.published_at.getD 0

/-- Inserts a post into a list sorted by `publishedKey` descending. -/
def insertDesc (p : Post) : List Post → List Post
  | [] => [p]
  | q :: qs =>
    if publishedKey q ≤ publishedKey p then p :: q :: qs
    else q :: insertDesc p qs

/-- Insertion sort by `publishedKey` descending. -/
def sortFeed : List Post → List Post
  | [] => []
  | p :: ps => insertDesc p (sortFeed ps)

/-- The public feed: non-draft posts ordered by `published_at`
descending. -/
def feed (db : PostsDb) : List Post :=
  sortFeed (db.posts.filter (fun p => p.is_draft = false))

/-- The paginated response shape (`PostListResponse` in
frontend/src/api/posts.ts). -/
structure PostListResponse where
  posts : List Post
  total : Nat
  page : Nat
  page_size : Nat
  total_pages : Nat
  deriving DecidableEq

/-- Modelled from the spec: backend `listPublicPosts(page, pageSize)` —
offset pagination over the feed with
`total_pages = ceil(total / page_size)`. -/
def listPublicPosts (db : PostsDb) (page pageSize : Nat) : PostListResponse :=
  let f := feed db
  { posts := (f.drop ((page - 1) * pageSize)).take pageSize
    total := f.length
    page := page
    page_size := pageSize
    total_pages := (f.length + pageSize - 1) / pageSize }

/-- The concatenation of pages `1 .. total_pages` of the public feed. -/
def allPages (db : PostsDb) (pageSize : Nat) : List Post :=
  ((List.range (listPublicPosts db 1 pageSize).total_pages).map
    (fun i => (listPublicPosts db (i + 1) pageSize).posts)).flatten

/-- The first `k` successive chunks of `p` elements of a list. -/
def chunksConcat (p : Nat) : Nat → List Post → List Post
  | 0, _ => []
  | k + 1, l => l.take p ++ chunksConcat p k (l.drop p)

/-! ## Blog editor data flow (frontend/src/components/BlogEditor.tsx and
frontend/src/pages/Write.tsx) -/

/-- The editor state feeding `BlogEditor.getData`: `editorHtml` models
`editor.getHTML()` and `editorText` models `editor.getText()` (the
document's plain text). -/
structure EditorFields where
  title : String
  editorHtml : String
  editorText : String
  coverImage : String
  tags : List String
  seoTitle : String
  seoDescription : String
  deriving DecidableEq

/-- The object handed to `onSave`/`onPublish` by `BlogEditor`. -/
structure EditorData where
  title : String
  content : String
  coverImage : String
  tags : List String
  seoTitle : String
  seoDescription : String
  deriving DecidableEq

/-- BlogEditor's `getData`: note that an empty SEO description falls back
to `editor.getText().slice(0, 160)` (JavaScript `||`). -/
def getData (f : EditorFields) : EditorData :=
  { title := f.title
    content := f.editorHtml
    coverImage := f.coverImage
    tags := f.tags
    seoTitle := orElse f.seoTitle f.title
    seoDescription := orElse f.seoDescription (strSlice f.editorText 160) }

/-- The body sent to the create-post endpoint (`CreatePostData` in
frontend/src/api/posts.ts). -/
structure CreatePostData where
  title : String
  content : String
  excerpt : String
  cover_image : String
  seo_title : String
  seo_description : String
  is_draft : Bool
  tags : List String
  deriving DecidableEq

/-- Write.tsx `handleSave`/`handlePublish`: builds the create-post body;
the excerpt is `data.seoDescription` when truthy, otherwise the first 150
characters of the regex-stripped content; `handleSave` passes
`is_draft = true` and `handlePublish` passes `is_draft = false`. -/
def writePostData (d : EditorData) (isDraft : Bool) : CreatePostData :=
  { title := orElse d.title "Untitled"
    content := d.content
    excerpt := orElse d.seoDescription (strSlice (stripHtml d.content) 150)
    cover_image := d.coverImage
    seo_title := d.seoTitle
    seo_description := d.seoDescription
    is_draft := isDraft
    tags := d.tags }

/-! ## Profile form and password change (frontend/src/pages/Profile.tsx;
backend handler modelled from the spec).  The form fields are text
inputs, so an absent value is the empty string. -/

structure ProfileForm where
  name : String
  currentPassword : String
  newPassword : String
  confirmPassword : String
  deriving DecidableEq

/-- The zod `profileSchema` of Profile.tsx: name of length ≥ 2; if a new
or confirm password is given, a current password of length ≥ 8 is
required; if a new password is given it must equal its confirmation. -/
def profileSchemaAccepts (f : ProfileForm) : Bool :=
  decide (2 ≤ f.name.length)
    && (if f.newPassword ≠ "" ∨ f.confirmPassword ≠ "" then
          (decide (f.currentPassword ≠ "") && decide (8 ≤ f.currentPassword.length))
        else true)
    && (if f.newPassword ≠ "" then decide (f.newPassword = f.confirmPassword) else true)

/-- Profile.tsx `onSubmit` runs only after the zod resolver accepts the
form, and calls the change-password API only when current, new and
confirm fields are all truthy. -/
def submitsChangePassword (f : ProfileForm) : Bool :=
  profileSchemaAccepts f
    && (decide (f.newPassword ≠ "")
        && (decide (f.currentPassword ≠ "") && decide (f.confirmPassword ≠ "")))

/-- Modelled from the spec: backend `changePassword(token, current, new,
confirm)` — `Unauthorized` when the current password is wrong, then
`ValidationError` when the new password differs from its confirmation or
fails the length-≥-8 policy. -/
def changePasswordServer (stored currentPw newPw confirmPw : String) :
    Except ApiError Unit :=
  if currentPw ≠ stored then .error .Unauthorized
  else if newPw ≠ confirmPw then .error .ValidationError
  else if newPw.length < 8 then .error .ValidationError
  else .ok ()

/-! ## OTP verification (spec §4.1 `verifyOtp`; backend handler not in
the available sources, modelled from the spec) -/

structure UserRec where
  id : Nat
  name : String
  email : String
  password_hash : String
  is_verified : Bool
  otp_code : Option String
  otp_expiry : Option Nat
  deriving DecidableEq

/-- A stateless bearer token bound to a user id. -/
structure Jwt where
  sub : Nat
  deriving DecidableEq

/-- Modelled from the spec: backend `verifyOtp(email, code)` — `NotFound`
when no pending registration exists for the email, `Unauthorized` when
the code mismatches or is expired; on success marks the user verified,
clears the OTP fields, and returns a JWT bound to the user id together
with the profile. -/
def verifyOtp (db : List UserRec) (email code : String) (now : Nat) :
    Except ApiError (Jwt × UserRec × List UserRec) :=
  match db.find? (fun u => u.email = email) with
  | none => .error .NotFound
  | some u =>
    match u.otp_code, u.otp_expiry with
    | some stored, some expiry =>
      if stored = code ∧ now ≤ expiry then
        let u' := { u with is_verified := true, otp_code := none, otp_expiry := none }
        .ok (⟨u.id⟩, u', db.map (fun v => if v.id = u.id then u' else v))
      else .error .Unauthorized
    | _, _ => .error .NotFound

/-! ## Client auth store (store/authStore.ts) -/

structure ClientUser where
  id : Nat
  name : String
  email : String
  avatar : Option String
  bio : Option String
  deriving DecidableEq

structure AuthState where
  user : Option ClientUser
  token : Option String
  isAuthenticated : Bool
  tempEmail : Option String
  deriving DecidableEq

/-- The auth store's `logout` action: awaits `authAPI.logout()` in a try
block whose catch only logs the error; the finally block resets the four
state fields.  `serverResult` is the outcome of the HTTP call. -/
def logout (s : AuthState) (serverResult : Except String Unit) : AuthState :=
  let afterTry :=
    match serverResult with
    | .ok _ => s
    | .error _ => s
  { afterTry with user := none, token := none, isAuthenticated := false, tempEmail := none }

/-! ## Tag editing (frontend/src/components/BlogEditor.tsx) -/

structure TagEditorState where
  tags : List String
  tagInput : String
  deriving DecidableEq

/-- A user interaction with the tag sidebar: typing into the tag input,
pressing Enter in it, or clicking a tag's remove button. -/
inductive TagAction where
  | setInput (s : String)
  | pressEnter
  | removeTag (t : String)

/-- BlogEditor's tag handlers: `handleAddTag` appends the trimmed input
on Enter only when it is non-empty and not already present (then clears
the input); `handleRemoveTag` filters the tag out. -/
def applyTagAction (s : TagEditorState) : TagAction → TagEditorState
  | .setInput v => { s with tagInput := v }
  | .pressEnter =>
    if s.tagInput.trim ≠ "" then
      { tags := if s.tagInput.trim ∈ s.tags then s.tags else s.tags ++ [s.tagInput.trim]
        tagInput := "" }
    else s
  | .removeTag t => { s with tags := s.tags.filter (fun x => x ≠ t) }

/-- The editor tag state after a sequence of interactions. -/
def runTagActions (s : TagEditorState) (acts : List TagAction) : TagEditorState :=
  acts.foldl applyTagAction s

/-! ## Concrete fixtures used by witnesses and counterexamples -/

/-- The create call of the read-time scenario: a published post whose
content is `"<p>word "` repeated 300 times. -/
def scenarioArgs : CreateArgs :=
  { authorId := 1, title := "Hi", content := scenarioContent, excerpt := some "e"
    isDraft := false, now := 10 }

/-- A published-post create call with tiny content. -/
def wPubArgs : CreateArgs :=
  { authorId := 7, title := "Hi", content := "hi", excerpt := some "e"
    isDraft := false, now := 10 }

/-- A stored published post (row literal). -/
def wPubPost : Post :=
  { id := 1, author_id := 7, title := "t", content := "hi", excerpt := "e"
    read_time := 1, is_draft := false, published_at := some 5 }

/-- A stored draft post (row literal). -/
def wDraftPost : Post :=
  { id := 2, author_id := 7, title := "d", content := "hi", excerpt := "e"
    read_time := 1, is_draft := true, published_at := none }

/-- A two-row posts table. -/
def wDb : PostsDb := ⟨[wPubPost, wDraftPost], 3⟩

/-- An owner edit of the published post that touches no field. -/
def wUpdKeep : UpdateArgs :=
  { postId := 1, callerId := 7, title := none, content := none, excerpt := none
    isDraft := none, now := 99 }

/-- An owner edit publishing the draft post. -/
def wUpdPublish : UpdateArgs :=
  { postId := 2, callerId := 7, title := none, content := none, excerpt := none
    isDraft := some false, now := 42 }

/-- A likes table with two rows. -/
def wLikes : List (Nat × Nat) := [(1, 2), (3, 2)]

/-- A 160-character plain text (`'a'` repeated 160 times). -/
def cexText : String := ⟨List.replicate 160 'a'⟩

/-- Editor state with no SEO description and a 160-character paragraph:
the tiptap document `<p>aaa…a</p>` whose plain text is `cexText`. -/
def cexFields : EditorFields :=
  { title := "T", editorHtml := "<p>" ++ cexText ++ "</p>", editorText := cexText
    coverImage := "", tags := [], seoTitle := "", seoDescription := "" }

/-- Editor state with an explicitly supplied SEO description. -/
def cexFields2 : EditorFields :=
  { title := "T", editorHtml := "<p>hi</p>", editorText := "hi"
    coverImage := "", tags := [], seoTitle := "", seoDescription := "my description" }

/-- A profile form requesting a password change. -/
def wForm : ProfileForm :=
  { name := "Alice", currentPassword := "password1"
    newPassword := "newpass123", confirmPassword := "newpass123" }

/-- A pending (unverified) registration row. -/
def wUser : UserRec :=
  { id := 4, name := "Alice", email := "alice@x.com", password_hash := "h"
    is_verified := false, otp_code := some "123456", otp_expiry := some 1000 }

/-- A one-row users table. -/
def wUsers : List UserRec := [wUser]

/-- A three-row table of published posts for the pagination witness. -/
def wFeedDb : PostsDb :=
  ⟨[{ id := 1, author_id := 1, title := "a", content := "x", excerpt := "x"
      read_time := 1, is_draft := false, published_at := some 30 },
    { id := 2, author_id := 1, title := "b", content := "x", excerpt := "x"
      read_time := 1, is_draft := false, published_at := some 20 },
    { id := 3, author_id := 2, title := "c", content := "x", excerpt := "x"
      read_time := 1, is_draft := false, published_at := some 10 }], 4⟩

end BlogApp

namespace BlogApp

/-! ## Helper lemmas: evaluation of the text utilities on the scenario -/

theorem stripAux_nil (acc : List Char) : stripHtmlAux acc [] = acc.reverse := by
  simp [stripHtmlAux]

theorem stripAux_chunk (acc l : List Char) :
    stripHtmlAux acc (tagChunk ++ l) = stripHtmlAux (wordRev ++ acc) l := by
  simp [tagChunk, wordRev, stripHtmlAux, List.dropWhile_cons]

theorem stripAux_rep (k : Nat) (acc l : List Char) :
    stripHtmlAux acc ((List.replicate k tagChunk).flatten ++ l)
      = stripHtmlAux ((List.replicate k wordRev).flatten ++ acc) l := by
  induction k generalizing acc with
  | zero => simp
  | succ k ih =>
    rw [List.replicate_succ, List.flatten_cons, List.append_assoc, stripAux_chunk, ih,
      List.replicate_succ' k wordRev, List.flatten_append]
    simp

theorem count_chunk (acc : Nat) (l : List Char) :
    countWordsAux acc false (wordChunk ++ l) = countWordsAux (acc + 1) false l := by
  simp [wordChunk, countWordsAux, Char.isWhitespace]

theorem count_rep (k : Nat) (acc : Nat) (l : List Char) :
    countWordsAux acc false ((List.replicate k wordChunk).flatten ++ l)
      = countWordsAux (acc + k) false l := by
  induction k generalizing acc with
  | zero => simp
  | succ k ih =>
    rw [List.replicate_succ, List.flatten_cons, List.append_assoc, count_chunk, ih]
    have h : acc + 1 + k = acc + (k + 1) := by omega
    rw [h]

theorem rev_flatten_rep (k : Nat) (w : List Char) :
    ((List.replicate k w).flatten).reverse = (List.replicate k w.reverse).flatten := by
  induction k with
  | zero => simp
  | succ k ih =>
    rw [List.replicate_succ, List.flatten_cons, List.reverse_append, ih,
      List.replicate_succ' k w.reverse, List.flatten_append]
    simp

theorem data_join (l : List String) :
    (String.join l).data = (l.map String.data).flatten := by
  have aux : ∀ (l : List String) (init : String),
      (l.foldl (· ++ ·) init).data = init.data ++ (l.map String.data).flatten := by
    intro l
    induction l with
    | nil => simp [List.foldl]
    | cons s rest ih =>
      intro init
      simp [List.foldl, ih, String.data_append]
  have h := aux l ""
  rwa [show ("" : String).data = [] from rfl, List.nil_append] at h

theorem scenario_data : scenarioContent.data = (List.replicate 300 tagChunk).flatten := by
  rw [scenarioContent, data_join, List.map_replicate]
  rfl

theorem strip_scenario :
    stripHtml scenarioContent = ⟨(List.replicate 300 wordChunk).flatten⟩ := by
  rw [stripHtml, scenario_data]
  rw [← List.append_nil ((List.replicate 300 tagChunk).flatten), stripAux_rep]
  rw [stripAux_nil, List.append_nil, rev_flatten_rep]
  have hwr : wordRev.reverse = wordChunk := by decide
  rw [hwr]

theorem readTime_scenario : readTime scenarioContent = 2 := by
  rw [readTime, strip_scenario]
  have hw : wordCount ⟨(List.replicate 300 wordChunk).flatten⟩ = 300 := by
    show countWordsAux 0 false ((List.replicate 300 wordChunk).flatten) = 300
    rw [← List.append_nil ((List.replicate 300 wordChunk).flatten), count_rep]
    rfl
  rw [hw]
  decide

/-! ## Helper lemmas: the post-service state machine -/

theorem runOps_preserve (P : PostsDb → Prop) (h0 : P emptyDb)
    (hstep : ∀ db op, P db → P (applyOp db op)) :
    ∀ ops : List PostOp, P (runOps ops) := by
  have aux : ∀ (l : List PostOp) (db : PostsDb), P db → P (l.foldl applyOp db) := by
    intro l
    induction l with
    | nil => intro db h; exact h
    | cons op rest ih => intro db h; exact ih _ (hstep db op h)
  intro ops
  exact aux ops emptyDb h0

theorem updatePost_ok_shape (db : PostsDb) (u : UpdateArgs) (db' : PostsDb) (p' : Post)
    (hres : updatePost db u = .ok (db', p')) :
    ∃ p0, db.posts.find? (fun q => q.id = u.postId) = some p0
      ∧ p0.author_id = u.callerId
      ∧ p' = applyUpdate p0 u
      ∧ db'.posts = db.posts.map (fun q => if q.id = u.postId then p' else q) := by
  unfold updatePost at hres
  cases hfind : db.posts.find? (fun q => q.id = u.postId) with
  | none => rw [hfind] at hres; cases hres
  | some p0 =>
    rw [hfind] at hres
    dsimp only at hres
    by_cases hauth : p0.author_id ≠ u.callerId
    · rw [if_pos hauth] at hres; cases hres
    · rw [if_neg hauth] at hres
      refine ⟨p0, rfl, by omega, ?_, ?_⟩
      · cases hres; rfl
      · cases hres; rfl

theorem applyUpdate_read_time (p0 : Post) (u : UpdateArgs)
    (h : p0.read_time = readTime p0.content) :
    (applyUpdate p0 u).read_time = readTime (applyUpdate p0 u).content := by
  cases hc : u.content with
  | some c => simp [applyUpdate, hc]
  | none => simp [applyUpdate, hc, h]

theorem applyOp_read_time (db : PostsDb) (op : PostOp)
    (h : ∀ p ∈ db.posts, p.read_time = readTime p.content) :
    ∀ p ∈ (applyOp db op).posts, p.read_time = readTime p.content := by
  cases op with
  | create a =>
    intro p hp
    simp only [applyOp, createPost, List.mem_append, List.mem_singleton] at hp
    rcases hp with hp | hp
    · exact h p hp
    · subst hp; rfl
  | update u =>
    simp only [applyOp]
    cases hres : updatePost db u with
    | error e => exact h
    | ok pair =>
      obtain ⟨db', p'⟩ := pair
      obtain ⟨p0, hfind, _, hp', hposts⟩ := updatePost_ok_shape db u db' p' hres
      intro p hp
      rw [hposts] at hp
      obtain ⟨q, hq, hqe⟩ := List.mem_map.mp hp
      by_cases hid : q.id = u.postId
      · rw [if_pos hid] at hqe
        subst hqe
        subst hp'
        exact applyUpdate_read_time p0 u (h p0 (List.mem_of_find?_eq_some hfind))
      · rw [if_neg hid] at hqe
        subst hqe
        exact h q hq

theorem applyOp_published (db : PostsDb) (op : PostOp)
    (h : ∀ p ∈ db.posts, p.is_draft = false → p.published_at ≠ none) :
    ∀ p ∈ (applyOp db op).posts, p.is_draft = false → p.published_at ≠ none := by
  cases op with
  | create a =>
    intro p hp hdraft
    simp only [applyOp, createPost, List.mem_append, List.mem_singleton] at hp
    rcases hp with hp | hp
    · exact h p hp hdraft
    · subst hp
      simp only at hdraft ⊢
      rw [hdraft]
      simp
  | update u =>
    simp only [applyOp]
    cases hres : updatePost db u with
    | error e => exact h
    | ok pair =>
      obtain ⟨db', p'⟩ := pair
      obtain ⟨p0, hfind, _, hp', hposts⟩ := updatePost_ok_shape db u db' p' hres
      intro p hp hdraft
      rw [hposts] at hp
      obtain ⟨q, hq, hqe⟩ := List.mem_map.mp hp
      by_cases hid : q.id = u.postId
      · rw [if_pos hid] at hqe
        subst hqe
        subst hp'
        simp only [applyUpdate] at hdraft ⊢
        by_cases hcond : u.isDraft.getD p0.is_draft = false ∧ p0.published_at = none
        · rw [if_pos hcond]; simp
        · rw [if_neg hcond]
          have hd : u.isDraft.getD p0.is_draft = false := hdraft
          intro hnone
          exact hcond ⟨hd, hnone⟩
      · rw [if_neg hid] at hqe
        subst hqe
        exact h q hq hdraft

theorem create_mem_runOps (a : CreateArgs) :
    (createPost emptyDb a).2 ∈ (runOps [PostOp.create a]).posts := by
  simp [runOps, applyOp, createPost, emptyDb]

/-! ## Claims C1, C2, C4 -/

/-- C1: for every post created or updated, the stored `read_time` equals
`max(1, ceil(wordCount / 200))` where `wordCount` counts the words of the
content after stripping HTML tags; in particular the published post of
the scenario, whose content is `"<p>word "` repeated 300 times (300
words), has `read_time = 2`. -/
theorem claim_C1_read_time :
    (∀ ops : List PostOp, ∀ p ∈ (runOps ops).posts,
        p.read_time = max 1 ((wordCount (stripHtml p.content) + 199) / 200))
    ∧ (createPost emptyDb scenarioArgs).2.is_draft = false
    ∧ (createPost emptyDb scenarioArgs).2.read_time = 2 := by
  refine ⟨?_, rfl, ?_⟩
  · intro ops
    exact runOps_preserve (fun db => ∀ p ∈ db.posts, p.read_time = readTime p.content)
      (by intro p hp; cases hp) applyOp_read_time ops
  · show (createPost emptyDb scenarioArgs).2.read_time = 2
    simp only [createPost, scenarioArgs]
    exact readTime_scenario

/-- Witness for C1: the read-time invariant instantiated on the table
reached by the scenario's create call. -/
theorem claim_C1_read_time_witness :
    (createPost emptyDb scenarioArgs).2 ∈ (runOps [PostOp.create scenarioArgs]).posts
    ∧ (createPost emptyDb scenarioArgs).2.read_time
        = max 1 ((wordCount (stripHtml (createPost emptyDb scenarioArgs).2.content) + 199) / 200) := by
  have hmem := create_mem_runOps scenarioArgs
  exact ⟨hmem, claim_C1_read_time.1 [PostOp.create scenarioArgs] _ hmem⟩

/-- C2: every reachable post with `is_draft = false` has a non-null
`published_at`; creation in the published state stamps `published_at`
with the creation time; an update never changes an already-set
`published_at` (editing a published post keeps it); and an update that
publishes a post whose `published_at` is unset stamps it with the update
time — so `published_at` is written exactly once, on the first
draft→published transition or at published creation. -/
theorem claim_C2_published_once :
    (∀ ops : List PostOp, ∀ p ∈ (runOps ops).posts,
        p.is_draft = false → p.published_at ≠ none)
    ∧ (∀ (db : PostsDb) (a : CreateArgs), a.isDraft = false →
        (createPost db a).2.published_at = some a.now)
    ∧ (∀ (db : PostsDb) (u : UpdateArgs) (p : Post) (t : Nat),
        db.posts.find? (fun q => q.id = u.postId) = some p →
        p.author_id = u.callerId → p.published_at = some t →
        (updatePost db u).map (fun r => r.2.published_at) = .ok (some t))
    ∧ (∀ (db : PostsDb) (u : UpdateArgs) (p : Post),
        db.posts.find? (fun q => q.id = u.postId) = some p →
        p.author_id = u.callerId → p.published_at = none →
        u.isDraft.getD p.is_draft = false →
        (updatePost db u).map (fun r => r.2.published_at) = .ok (some u.now)) := by
  refine ⟨?_, ?_, ?_, ?_⟩
  · intro ops
    exact runOps_preserve (fun db => ∀ p ∈ db.posts, p.is_draft = false → p.published_at ≠ none)
      (by intro p hp; cases hp) applyOp_published ops
  · intro db a ha
    simp [createPost, ha]
  · intro db u p t hfind hauth hpub
    unfold updatePost
    rw [hfind]
    dsimp only
    rw [if_neg (by omega)]
    simp only [Except.map]
    have hcond : ¬ (u.isDraft.getD p.is_draft = false ∧ p.published_at = none) := by
      intro hc
      rw [hpub] at hc
      exact Option.noConfusion hc.2
    simp [applyUpdate, if_neg hcond, hpub]
  · intro db u p hfind hauth hpub hdraft
    unfold updatePost
    rw [hfind]
    dsimp only
    rw [if_neg (by omega)]
    simp only [Except.map]
    have hcond : u.isDraft.getD p.is_draft = false ∧ p.published_at = none := ⟨hdraft, hpub⟩
    simp [applyUpdate, if_pos hcond]

/-- Witness for C2: the conjuncts instantiated on a two-row table — a
published post edited without changes keeps `published_at = some 5`, and
publishing the draft stamps `published_at = some 42`. -/
theorem claim_C2_published_once_witness :
    ((createPost emptyDb wPubArgs).2 ∈ (runOps [PostOp.create wPubArgs]).posts
      ∧ (createPost emptyDb wPubArgs).2.is_draft = false
      ∧ (createPost emptyDb wPubArgs).2.published_at ≠ none)
    ∧ (wPubArgs.isDraft = false ∧ (createPost emptyDb wPubArgs).2.published_at = some 10)
    ∧ (wDb.posts.find? (fun q => q.id = wUpdKeep.postId) = some wPubPost
      ∧ wPubPost.published_at = some 5
      ∧ (updatePost wDb wUpdKeep).map (fun r => r.2.published_at) = .ok (some 5))
    ∧ (wDb.posts.find? (fun q => q.id = wUpdPublish.postId) = some wDraftPost
      ∧ wDraftPost.published_at = none
      ∧ (updatePost wDb wUpdPublish).map (fun r => r.2.published_at) = .ok (some 42)) := by
  have hmem := create_mem_runOps wPubArgs
  refine ⟨⟨hmem, rfl, ?_⟩, ⟨rfl, ?_⟩, ⟨by decide, by decide, ?_⟩, ⟨by decide, by decide, ?_⟩⟩
  · exact claim_C2_published_once.1 [PostOp.create wPubArgs] _ hmem rfl
  · exact claim_C2_published_once.2.1 emptyDb wPubArgs rfl
  · exact claim_C2_published_once.2.2.1 wDb wUpdKeep wPubPost 5 (by decide) (by decide) (by decide)
  · exact claim_C2_published_once.2.2.2 wDb wUpdPublish wDraftPost (by decide) (by decide)
      (by decide) (by decide)

/-- C4: for a stored draft post, `getPost` fails with `NotFound` (not
`Forbidden`) for every caller other than the author — including the
anonymous caller — while the author receives the full post regardless of
draft state. -/
theorem claim_C4_draft_hidden :
    ∀ (db : PostsDb) (postId : Nat) (p : Post),
      db.posts.find? (fun q => q.id = postId) = some p →
      p.is_draft = true →
      (∀ caller : Option Nat, caller ≠ some p.author_id →
          getPost db postId caller = .error .NotFound)
      ∧ getPost db postId (some p.author_id) = .ok p := by
  intro db postId p hfind hdraft
  constructor
  · intro caller hcaller
    unfold getPost
    rw [hfind]
    dsimp only
    rw [if_neg hcaller, if_pos (Or.inl hdraft)]
  · unfold getPost
    rw [hfind]
    dsimp only
    rw [if_pos rfl]

/-- Witness for C4: on the two-row table, the stranger (user 8) and the
anonymous caller get `NotFound` for the draft post, while its author
(user 7) gets the post. -/
theorem claim_C4_draft_hidden_witness :
    wDb.posts.find? (fun q => q.id = 2) = some wDraftPost
    ∧ wDraftPost.is_draft = true
    ∧ getPost wDb 2 (some 8) = .error .NotFound
    ∧ getPost wDb 2 none = .error .NotFound
    ∧ getPost wDb 2 (some wDraftPost.author_id) = .ok wDraftPost := by
  have h := claim_C4_draft_hidden wDb 2 wDraftPost (by decide) (by decide)
  exact ⟨by decide, by decide, h.1 (some 8) (by decide), h.1 none (by decide), h.2⟩

end BlogApp

namespace BlogApp

/-! ## Helper lemmas: the likes table -/

theorem perm_cons_filter_ne (l : List (Nat × Nat)) (x : Nat × Nat)
    (hnd : l.Nodup) (hx : x ∈ l) :
    l.Perm (x :: l.filter (fun e => e ≠ x)) := by
  induction l with
  | nil => cases hx
  | cons a as ih =>
    rcases List.mem_cons.mp hx with h | h
    · subst h
      have hnotin : x ∉ as := (List.nodup_cons.mp hnd).1
      have hfe : as.filter (fun e => e ≠ x) = as := by
        apply List.filter_eq_self.mpr
        intro e he
        simp only [decide_eq_true_eq]
        intro hc
        exact hnotin (hc ▸ he)
      rw [List.filter_cons, if_neg (by simp), hfe]
    · have hnd' := (List.nodup_cons.mp hnd).2
      have hax : a ≠ x := fun he => (List.nodup_cons.mp hnd).1 (he ▸ h)
      have ihh := ih hnd' h
      rw [List.filter_cons, if_pos (by simp [hax])]
      exact (ihh.cons a).trans (List.Perm.swap x a _)

/-! ## Claim C3 -/

/-- C3: `toggleLike` is an involution under sequential calls — toggling
twice for the same `(postId, userId)` returns to the original `is_liked`
state, the original live `likes_count`, and a likes table that is a
permutation of the original; a single call reports `is_liked = true`
exactly when the row was absent (insert) and `false` when it was present
(delete). -/
theorem claim_C3_toggle_involution :
    ∀ (likes : List (Nat × Nat)) (postId userId : Nat), likes.Nodup →
      (toggleLike (toggleLike likes postId userId).1 postId userId).2.is_liked
          = decide ((postId, userId) ∈ likes)
      ∧ (toggleLike (toggleLike likes postId userId).1 postId userId).2.likes_count
          = likesCount likes postId
      ∧ ((toggleLike (toggleLike likes postId userId).1 postId userId).1).Perm likes
      ∧ (toggleLike likes postId userId).2.is_liked = decide ((postId, userId) ∉ likes) := by
  intro likes postId userId hnd
  by_cases hx : (postId, userId) ∈ likes
  · have h1 : toggleLike likes postId userId
        = (likes.filter (fun e => e ≠ (postId, userId)),
           ⟨false, likesCount (likes.filter (fun e => e ≠ (postId, userId))) postId⟩) := by
      simp [toggleLike, hx]
    have hnotmem : (postId, userId) ∉ likes.filter (fun e => e ≠ (postId, userId)) := by
      simp [List.mem_filter]
    have h2 : toggleLike (likes.filter (fun e => e ≠ (postId, userId))) postId userId
        = ((postId, userId) :: likes.filter (fun e => e ≠ (postId, userId)),
           ⟨true, likesCount ((postId, userId)
              :: likes.filter (fun e => e ≠ (postId, userId))) postId⟩) := by
      simp [toggleLike, hnotmem]
    have hperm := perm_cons_filter_ne likes (postId, userId) hnd hx
    have hcount : likesCount likes postId
        = likesCount ((postId, userId) :: likes.filter (fun e => e ≠ (postId, userId))) postId :=
      List.Perm.countP_eq _ hperm
    rw [h1]
    simp only [h2]
    refine ⟨by simp [hx], hcount.symm, hperm.symm, by simp [hx]⟩
  · have h1 : toggleLike likes postId userId
        = ((postId, userId) :: likes,
           ⟨true, likesCount ((postId, userId) :: likes) postId⟩) := by
      simp [toggleLike, hx]
    have hmem : (postId, userId) ∈ (postId, userId) :: likes := List.mem_cons_self _ _
    have h2 : toggleLike ((postId, userId) :: likes) postId userId
        = (((postId, userId) :: likes).filter (fun e => e ≠ (postId, userId)),
           ⟨false, likesCount (((postId, userId)
              :: likes).filter (fun e => e ≠ (postId, userId))) postId⟩) := by
      simp [toggleLike]
    have hfe : ((postId, userId) :: likes).filter (fun e => e ≠ (postId, userId)) = likes := by
      rw [List.filter_cons, if_neg (by simp)]
      apply List.filter_eq_self.mpr
      intro e he
      simp only [decide_eq_true_eq]
      intro hc
      exact hx (hc ▸ he)
    rw [h1]
    simp only [h2, hfe]
    refine ⟨by simp [hx], trivial, List.Perm.refl _, by simp [hx]⟩

/-- Witness for C3: the involution instantiated on the two-row likes
table at the pair `(1, 2)`. -/
theorem claim_C3_toggle_involution_witness :
    wLikes.Nodup
    ∧ ((toggleLike (toggleLike wLikes 1 2).1 1 2).2.is_liked
          = decide ((1, 2) ∈ wLikes)
        ∧ (toggleLike (toggleLike wLikes 1 2).1 1 2).2.likes_count
          = likesCount wLikes 1
        ∧ ((toggleLike (toggleLike wLikes 1 2).1 1 2).1).Perm wLikes
        ∧ (toggleLike wLikes 1 2).2.is_liked = decide ((1, 2) ∉ wLikes)) :=
  ⟨by decide, claim_C3_toggle_involution wLikes 1 2 (by decide)⟩

/-! ## Helper lemmas: pagination -/

theorem insertDesc_perm (p : Post) (l : List Post) : (insertDesc p l).Perm (p :: l) := by
  induction l with
  | nil => rw [insertDesc]
  | cons q qs ih =>
    by_cases h : publishedKey q ≤ publishedKey p
    · rw [insertDesc, if_pos h]
    · rw [insertDesc, if_neg h]
      exact (ih.cons q).trans (List.Perm.swap p q qs)

theorem sortFeed_perm (l : List Post) : (sortFeed l).Perm l := by
  induction l with
  | nil => rw [sortFeed]
  | cons p ps ih =>
    rw [sortFeed]
    exact (insertDesc_perm p (sortFeed ps)).trans (ih.cons p)

theorem chunksConcat_self (p k : Nat) (l : List Post) (h : l.length ≤ k * p) :
    chunksConcat p k l = l := by
  induction k generalizing l with
  | zero =>
    rw [chunksConcat]
    have h0 : l.length = 0 := by
      have : (0 : Nat) * p = 0 := Nat.zero_mul p
      omega
    exact (List.eq_nil_of_length_eq_zero h0).symm
  | succ k ih =>
    rw [chunksConcat]
    have hd : (l.drop p).length ≤ k * p := by
      rw [List.length_drop]
      have hs : (k + 1) * p = k * p + p := Nat.succ_mul k p
      omega
    rw [ih (l.drop p) hd, List.take_append_drop]

theorem chunksConcat_eq_pages (p k : Nat) (l : List Post) :
    chunksConcat p k l
      = ((List.range k).map (fun i => (l.drop (i * p)).take p)).flatten := by
  induction k generalizing l with
  | zero => rw [chunksConcat]; simp
  | succ k ih =>
    rw [chunksConcat, List.range_succ_eq_map]
    simp only [List.map_cons, List.map_map, List.flatten_cons, Nat.zero_mul, List.drop_zero]
    rw [ih (l.drop p)]
    congr 1
    apply congrArg
    apply List.map_congr_left
    intro i hi
    simp only [Function.comp_apply]
    rw [List.drop_drop]
    have harith : p + i * p = Nat.succ i * p := by
      rw [Nat.succ_mul]
      exact Nat.add_comm p (i * p)
    rw [harith]

theorem le_ceil_mul (a p : Nat) (hp : 0 < p) : a ≤ ((a + p - 1) / p) * p := by
  rw [Nat.mul_comm]
  have h := Nat.div_add_mod (a + p - 1) p
  have hr : (a + p - 1) % p < p := Nat.mod_lt _ hp
  omega

theorem listPublicPosts_posts (db : PostsDb) (i pageSize : Nat) :
    (listPublicPosts db (i + 1) pageSize).posts
      = ((feed db).drop (i * pageSize)).take pageSize := by
  simp [listPublicPosts]

/-! ## Claim C5 -/

/-- C5: over a fixed table, `listPublicPosts` reports
`total_pages = ceil(total / pageSize)`, and the concatenation of the
posts of pages `1 .. total_pages` is exactly the feed — hence exactly
`total` posts, with no post id repeated across pages whenever the table's
ids are distinct. -/
theorem claim_C5_pages :
    ∀ (db : PostsDb) (pageSize : Nat), 0 < pageSize →
      (db.posts.map Post.id).Nodup →
      (∀ page : Nat, (listPublicPosts db page pageSize).total_pages
          = ((listPublicPosts db page pageSize).total + pageSize - 1) / pageSize)
      ∧ allPages db pageSize = feed db
      ∧ (allPages db pageSize).length = (feed db).length
      ∧ ((allPages db pageSize).map Post.id).Nodup := by
  intro db pageSize hp hnd
  have hjoin : allPages db pageSize = feed db := by
    rw [allPages]
    have hmap : (List.range (listPublicPosts db 1 pageSize).total_pages).map
          (fun i => (listPublicPosts db (i + 1) pageSize).posts)
        = (List.range (listPublicPosts db 1 pageSize).total_pages).map
          (fun i => ((feed db).drop (i * pageSize)).take pageSize) :=
      List.map_congr_left (fun i _ => listPublicPosts_posts db i pageSize)
    rw [hmap, ← chunksConcat_eq_pages]
    apply chunksConcat_self
    have htp : (listPublicPosts db 1 pageSize).total_pages
        = ((feed db).length + pageSize - 1) / pageSize := rfl
    rw [htp]
    exact le_ceil_mul (feed db).length pageSize hp
  refine ⟨fun page => rfl, hjoin, by rw [hjoin], ?_⟩
  rw [hjoin]
  have hfil : ((db.posts.filter (fun p => p.is_draft = false)).map Post.id).Nodup :=
    ((List.filter_sublist _).map _).nodup hnd
  have hperm := (sortFeed_perm (db.posts.filter (fun p => p.is_draft = false))).map Post.id
  exact hperm.nodup_iff.mpr hfil

/-- Witness for C5: the pagination invariant on a three-post feed with
page size 2 (two pages: 2 posts then 1 post). -/
theorem claim_C5_pages_witness :
    0 < 2 ∧ (wFeedDb.posts.map Post.id).Nodup
    ∧ ((∀ page : Nat, (listPublicPosts wFeedDb page 2).total_pages
          = ((listPublicPosts wFeedDb page 2).total + 2 - 1) / 2)
      ∧ allPages wFeedDb 2 = feed wFeedDb
      ∧ (allPages wFeedDb 2).length = (feed wFeedDb).length
      ∧ ((allPages wFeedDb 2).map Post.id).Nodup) :=
  ⟨by decide, by decide, claim_C5_pages wFeedDb 2 (by decide) (by decide)⟩

end BlogApp

namespace BlogApp

/-! ## Helper lemmas: stripping a plain paragraph -/

theorem stripAux_plain (l : List Char) (acc rest : List Char)
    (h : ∀ c ∈ l, ¬ c = '<') :
    stripHtmlAux acc (l ++ rest) = stripHtmlAux (l.reverse ++ acc) rest := by
  induction l generalizing acc with
  | nil => simp
  | cons c cs ih =>
    have hc : ¬ c = '<' := h c (List.mem_cons_self c cs)
    rw [List.cons_append, stripHtmlAux, if_neg hc,
      ih (c :: acc) (fun d hd => h d (List.mem_cons_of_mem c hd)),
      List.reverse_cons, List.append_assoc, List.singleton_append]

theorem stripAux_open (acc l : List Char) :
    stripHtmlAux acc ('<' :: 'p' :: '>' :: l) = stripHtmlAux acc l := by
  simp [stripHtmlAux, List.dropWhile_cons]

theorem stripAux_close (acc : List Char) :
    stripHtmlAux acc ('<' :: '/' :: 'p' :: '>' :: []) = acc.reverse := by
  simp [stripHtmlAux, List.dropWhile_cons]

theorem strip_p_wrap (s : String) (h : ∀ c ∈ s.data, ¬ c = '<') :
    stripHtml ("<p>" ++ s ++ "</p>") = s := by
  rw [stripHtml]
  have h1 : ("<p>" : String).data = ['<', 'p', '>'] := rfl
  have h2 : ("</p>" : String).data = ['<', '/', 'p', '>'] := rfl
  have hdata : ("<p>" ++ s ++ "</p>").data
      = '<' :: 'p' :: '>' :: (s.data ++ ('<' :: '/' :: 'p' :: '>' :: [])) := by
    rw [String.data_append, String.data_append, h1, h2]
    simp
  rw [hdata, stripAux_open, stripAux_plain s.data [] _ h, stripAux_close]
  simp

/-! ## Claim C6 (corrected) -/

/-- Counterexample for C6: in Write.tsx the saved excerpt comes from
`BlogEditor.getData`, which substitutes `editor.getText().slice(0, 160)`
for an empty SEO description, so with no SEO description entered and a
160-character paragraph the excerpt is the 160-character plain text —
not the first 150 characters of the tag-stripped content. -/
theorem claim_C6_excerpt_counterexample :
    cexFields.seoDescription = ""
    ∧ (writePostData (getData cexFields) true).excerpt
        ≠ strSlice (stripHtml (getData cexFields).content) 150 := by
  constructor
  · rfl
  · have hne : cexText ≠ "" := by decide
    have h160 : strSlice cexText 160 = cexText := by
      rw [strSlice]
      have hd : cexText.data = List.replicate 160 'a' := rfl
      rw [hd, List.take_replicate]
      rfl
    have hlhs : (writePostData (getData cexFields) true).excerpt = cexText := by
      simp only [writePostData, getData, cexFields, orElse, h160, if_true]
      rw [if_neg hne]
    have hstrip : stripHtml ("<p>" ++ cexText ++ "</p>") = cexText := by
      apply strip_p_wrap
      intro c hc
      have hd : cexText.data = List.replicate 160 'a' := rfl
      rw [hd] at hc
      rw [List.eq_of_mem_replicate hc]
      decide
    have hrhs : strSlice (stripHtml (getData cexFields).content) 150
        = ⟨List.replicate 150 'a'⟩ := by
      have hcontent : (getData cexFields).content = "<p>" ++ cexText ++ "</p>" := rfl
      rw [hcontent, hstrip, strSlice]
      have hd : cexText.data = List.replicate 160 'a' := rfl
      rw [hd, List.take_replicate]
      rfl
    rw [hlhs, hrhs]
    intro hcon
    have hlen := congrArg (fun s : String => s.data.length) hcon
    simp only [cexText] at hlen
    simp [List.length_replicate] at hlen

/-- C6 amended: when an SEO description is supplied it is used as the
excerpt; when none is supplied, `BlogEditor.getData` first substitutes
the first 160 characters of the editor's plain text for it, so the
excerpt equals those 160 characters whenever the plain text is
non-empty, and equals the first 150 characters of the tag-stripped
content only when the editor's plain text is empty. -/
theorem claim_C6_excerpt_amended :
    ∀ (f : EditorFields) (isDraft : Bool),
      (f.seoDescription ≠ "" →
        (writePostData (getData f) isDraft).excerpt = f.seoDescription)
      ∧ (f.seoDescription = "" → f.editorText ≠ "" →
        (writePostData (getData f) isDraft).excerpt = strSlice f.editorText 160)
      ∧ (f.seoDescription = "" → f.editorText = "" →
        (writePostData (getData f) isDraft).excerpt
          = strSlice (stripHtml f.editorHtml) 150) := by
  intro f isDraft
  refine ⟨?_, ?_, ?_⟩
  · intro h
    simp only [writePostData, getData, orElse]
    rw [if_neg h, if_neg h]
  · intro h1 h2
    have hslice : strSlice f.editorText 160 ≠ "" := by
      intro hcon
      apply h2
      have hd := congrArg String.data hcon
      simp only [strSlice] at hd
      rcases List.take_eq_nil_iff.mp hd with h | h
      · cases h
      · have : f.editorText = ⟨[]⟩ := congrArg String.mk h
        exact this
    simp only [writePostData, getData, orElse]
    rw [if_pos h1, if_neg hslice]
  · intro h1 h2
    have hslice : strSlice f.editorText 160 = "" := by
      rw [h2]
      rfl
    simp only [writePostData, getData, orElse]
    rw [if_pos h1, hslice, if_pos rfl]

/-- Witness for the amended C6: a supplied SEO description is used
verbatim, and with none supplied and non-empty editor text the excerpt is
the 160-character plain-text slice. -/
theorem claim_C6_excerpt_amended_witness :
    (cexFields2.seoDescription ≠ ""
      ∧ (writePostData (getData cexFields2) true).excerpt = cexFields2.seoDescription)
    ∧ (cexFields.seoDescription = "" ∧ cexFields.editorText ≠ ""
      ∧ (writePostData (getData cexFields) false).excerpt
          = strSlice cexFields.editorText 160) :=
  ⟨⟨by decide, (claim_C6_excerpt_amended cexFields2 true).1 (by decide)⟩,
   ⟨rfl, by decide, (claim_C6_excerpt_amended cexFields false).2.1 rfl (by decide)⟩⟩

/-! ## Claim C7 -/

/-- C7: the modelled change-password handler fails with `Unauthorized`
when the current password is wrong, and — current password being right —
fails with `ValidationError` when the new password differs from its
confirmation or is shorter than 8 characters; on the client a
change-password request is submitted only when the current, new and
confirm fields are all present and the zod `profileSchema` accepts the
form. -/
theorem claim_C7_change_password :
    (∀ stored currentPw newPw confirmPw : String,
      (currentPw ≠ stored →
        changePasswordServer stored currentPw newPw confirmPw = .error .Unauthorized)
      ∧ (currentPw = stored → newPw ≠ confirmPw ∨ newPw.length < 8 →
        changePasswordServer stored currentPw newPw confirmPw = .error .ValidationError)
      ∧ (currentPw = stored → newPw = confirmPw → 8 ≤ newPw.length →
        changePasswordServer stored currentPw newPw confirmPw = .ok ()))
    ∧ (∀ f : ProfileForm, submitsChangePassword f = true →
        f.currentPassword ≠ "" ∧ f.newPassword ≠ "" ∧ f.confirmPassword ≠ ""
          ∧ profileSchemaAccepts f = true) := by
  constructor
  · intro stored c n cf
    refine ⟨?_, ?_, ?_⟩
    · intro h
      rw [changePasswordServer, if_pos h]
    · intro hc hbad
      rw [changePasswordServer, if_neg (by simp [hc])]
      rcases hbad with h | h
      · rw [if_pos h]
      · by_cases hmatch : n ≠ cf
        · rw [if_pos hmatch]
        · rw [if_neg hmatch, if_pos h]
    · intro hc hm hlen
      rw [changePasswordServer, if_neg (by simp [hc]), if_neg (by simp [hm]),
        if_neg (by omega)]
  · intro f hsub
    simp only [submitsChangePassword, Bool.and_eq_true, decide_eq_true_eq] at hsub
    exact ⟨hsub.2.2.1, hsub.2.1, hsub.2.2.2, hsub.1⟩

/-- Witness for C7: a wrong current password, a mismatching confirmation,
a too-short new password, a successful change, and a submitted form. -/
theorem claim_C7_change_password_witness :
    ("wrongpass" ≠ "password1"
      ∧ changePasswordServer "password1" "wrongpass" "newpass123" "newpass123"
          = .error .Unauthorized)
    ∧ (("newpass123" : String) ≠ "different"
      ∧ changePasswordServer "password1" "password1" "newpass123" "different"
          = .error .ValidationError)
    ∧ (("short" : String).length < 8
      ∧ changePasswordServer "password1" "password1" "short" "short"
          = .error .ValidationError)
    ∧ changePasswordServer "password1" "password1" "newpass123" "newpass123" = .ok ()
    ∧ (submitsChangePassword wForm = true
      ∧ wForm.currentPassword ≠ "" ∧ wForm.newPassword ≠ "" ∧ wForm.confirmPassword ≠ ""
      ∧ profileSchemaAccepts wForm = true) := by
  refine ⟨⟨by decide, ?_⟩, ⟨by decide, ?_⟩, ⟨by decide, ?_⟩, ?_, ⟨by decide, ?_⟩⟩
  · exact (claim_C7_change_password.1 "password1" "wrongpass" "newpass123" "newpass123").1
      (by decide)
  · exact (claim_C7_change_password.1 "password1" "password1" "newpass123" "different").2.1
      rfl (Or.inl (by decide))
  · exact (claim_C7_change_password.1 "password1" "password1" "short" "short").2.1
      rfl (Or.inr (by decide))
  · exact (claim_C7_change_password.1 "password1" "password1" "newpass123" "newpass123").2.2
      rfl rfl (by decide)
  · exact claim_C7_change_password.2 wForm (by decide)

/-! ## Claim C8 -/

/-- C8: the modelled `verifyOtp` fails with `NotFound` when no pending
registration exists for the email, fails with `Unauthorized` when the
submitted code mismatches the stored OTP or the OTP is expired, and on
success marks the user verified, clears the OTP fields, and returns a
JWT whose subject is the user id together with the profile; a mismatched
code is never accepted. -/
theorem claim_C8_verify_otp :
    ∀ (db : List UserRec) (email code : String) (now : Nat),
      (db.find? (fun u => u.email = email) = none →
        verifyOtp db email code now = .error .NotFound)
      ∧ (∀ u stored expiry, db.find? (fun u => u.email = email) = some u →
          u.otp_code = some stored → u.otp_expiry = some expiry →
          stored ≠ code ∨ expiry < now →
          verifyOtp db email code now = .error .Unauthorized)
      ∧ (∀ u expiry, db.find? (fun u => u.email = email) = some u →
          u.otp_code = some code → u.otp_expiry = some expiry → now ≤ expiry →
          ∃ u', verifyOtp db email code now
              = .ok (⟨u.id⟩, u', db.map (fun v => if v.id = u.id then u' else v))
            ∧ u'.is_verified = true ∧ u'.otp_code = none ∧ u'.otp_expiry = none
            ∧ u'.id = u.id ∧ u'.email = u.email ∧ u'.name = u.name)
      ∧ (∀ u stored, db.find? (fun u => u.email = email) = some u →
          u.otp_code = some stored → stored ≠ code →
          ∀ r, verifyOtp db email code now ≠ .ok r) := by
  intro db email code now
  refine ⟨?_, ?_, ?_, ?_⟩
  · intro hfind
    rw [verifyOtp, hfind]
  · intro u stored expiry hfind hcode hexp hbad
    rw [verifyOtp, hfind]
    dsimp only
    rw [hcode, hexp]
    dsimp only
    rw [if_neg (by rcases hbad with h | h <;> simp [h])]
  · intro u expiry hfind hcode hexp hnow
    refine ⟨{ u with is_verified := true, otp_code := none, otp_expiry := none },
      ?_, rfl, rfl, rfl, rfl, rfl, rfl⟩
    rw [verifyOtp, hfind]
    dsimp only
    rw [hcode, hexp]
    dsimp only
    rw [if_pos ⟨rfl, hnow⟩]
  · intro u stored hfind hcode hne r
    rw [verifyOtp, hfind]
    dsimp only
    rw [hcode]
    cases hexp : u.otp_expiry with
    | none =>
      dsimp only
      simp
    | some e =>
      dsimp only
      rw [if_neg (by simp [hne])]
      simp

/-- Witness for C8: on a one-row users table — unknown email gives
`NotFound`, a wrong code gives `Unauthorized`, an expired code gives
`Unauthorized`, the correct code in time verifies the user, and the
wrong code is never accepted. -/
theorem claim_C8_verify_otp_witness :
    (wUsers.find? (fun u => u.email = "bob@x.com") = none
      ∧ verifyOtp wUsers "bob@x.com" "123456" 0 = .error .NotFound)
    ∧ (wUsers.find? (fun u => u.email = "alice@x.com") = some wUser
      ∧ verifyOtp wUsers "alice@x.com" "999999" 0 = .error .Unauthorized)
    ∧ verifyOtp wUsers "alice@x.com" "123456" 2000 = .error .Unauthorized
    ∧ (∃ u', verifyOtp wUsers "alice@x.com" "123456" 500
          = .ok (⟨wUser.id⟩, u', wUsers.map (fun v => if v.id = wUser.id then u' else v))
        ∧ u'.is_verified = true ∧ u'.otp_code = none ∧ u'.otp_expiry = none
        ∧ u'.id = wUser.id ∧ u'.email = wUser.email ∧ u'.name = wUser.name)
    ∧ (∀ r, verifyOtp wUsers "alice@x.com" "999999" 500 ≠ .ok r) := by
  refine ⟨⟨by decide, ?_⟩, ⟨by decide, ?_⟩, ?_, ?_, ?_⟩
  · exact (claim_C8_verify_otp wUsers "bob@x.com" "123456" 0).1 (by decide)
  · exact (claim_C8_verify_otp wUsers "alice@x.com" "999999" 0).2.1 wUser "123456" 1000
      (by decide) (by decide) (by decide) (Or.inl (by decide))
  · exact (claim_C8_verify_otp wUsers "alice@x.com" "123456" 2000).2.1 wUser "123456" 1000
      (by decide) (by decide) (by decide) (Or.inr (by decide))
  · exact (claim_C8_verify_otp wUsers "alice@x.com" "123456" 500).2.2.1 wUser 1000
      (by decide) (by decide) (by decide) (by decide)
  · exact (claim_C8_verify_otp wUsers "alice@x.com" "999999" 500).2.2.2 wUser "123456"
      (by decide) (by decide) (by decide)

/-! ## Claim C9 -/

/-- C9: the auth store's `logout` action always leaves
`user = null`, `token = null`, `isAuthenticated = false` and
`tempEmail = null` — also when the server-side logout request throws,
because the state reset runs in the `finally` block. -/
theorem claim_C9_logout_resets :
    ∀ (s : AuthState) (r : Except String Unit),
      (logout s r).user = none ∧ (logout s r).token = none
      ∧ (logout s r).isAuthenticated = false ∧ (logout s r).tempEmail = none := by
  intro s r
  cases r with
  | ok v => exact ⟨rfl, rfl, rfl, rfl⟩
  | error e => exact ⟨rfl, rfl, rfl, rfl⟩

/-! ## Claim C10 -/

/-- C10: starting from a duplicate-free initial tag list, every sequence
of editor interactions preserves duplicate-freeness of the tag list, and
every tag not already present initially is the trim of some typed input
and non-empty — `handleAddTag` only appends `tagInput.trim()` when
non-empty and not already present, and `handleRemoveTag` only removes. -/
theorem claim_C10_tags_nodup :
    ∀ (init : List String) (acts : List TagAction), init.Nodup →
      (runTagActions ⟨init, ""⟩ acts).tags.Nodup
      ∧ ∀ t ∈ (runTagActions ⟨init, ""⟩ acts).tags,
          t ∈ init ∨ ∃ s : String, t = s.trim ∧ s.trim ≠ "" := by
  intro init acts hnd
  have step : ∀ (st : TagEditorState) (a : TagAction),
      (st.tags.Nodup ∧ ∀ t ∈ st.tags, t ∈ init ∨ ∃ s : String, t = s.trim ∧ s.trim ≠ "") →
      ((applyTagAction st a).tags.Nodup
        ∧ ∀ t ∈ (applyTagAction st a).tags,
            t ∈ init ∨ ∃ s : String, t = s.trim ∧ s.trim ≠ "") := by
    intro st a h
    cases a with
    | setInput v => exact h
    | pressEnter =>
      by_cases htrim : st.tagInput.trim ≠ ""
      · simp only [applyTagAction, if_pos htrim]
        by_cases hmem : st.tagInput.trim ∈ st.tags
        · rw [if_pos hmem]
          exact h
        · rw [if_neg hmem]
          constructor
          · rw [List.nodup_append]
            refine ⟨h.1, List.nodup_singleton _, ?_⟩
            intro a ha hb
            rw [List.mem_singleton] at hb
            subst hb
            exact hmem ha
          · intro t ht
            rcases List.mem_append.mp ht with ht | ht
            · exact h.2 t ht
            · rw [List.mem_singleton] at ht
              subst ht
              exact Or.inr ⟨st.tagInput, rfl, htrim⟩
      · simp only [applyTagAction, if_neg htrim]
        exact h
    | removeTag t0 =>
      constructor
      · exact List.Nodup.filter _ h.1
      · intro t ht
        exact h.2 t (List.mem_of_mem_filter ht)
  have aux : ∀ (l : List TagAction) (st : TagEditorState),
      (st.tags.Nodup ∧ ∀ t ∈ st.tags, t ∈ init ∨ ∃ s : String, t = s.trim ∧ s.trim ≠ "") →
      ((l.foldl applyTagAction st).tags.Nodup
        ∧ ∀ t ∈ (l.foldl applyTagAction st).tags,
            t ∈ init ∨ ∃ s : String, t = s.trim ∧ s.trim ≠ "") := by
    intro l
    induction l with
    | nil => intro st h; exact h
    | cons a rest ih => intro st h; exact ih _ (step st a h)
  exact aux acts ⟨init, ""⟩ ⟨hnd, fun t ht => Or.inl ht⟩

/-- Witness for C10: adding tag `b` after tag list `[x]` and removing
`x` keeps the list duplicate-free with every added entry trimmed and
non-empty. -/
theorem claim_C10_tags_nodup_witness :
    (["x"] : List String).Nodup
    ∧ ((runTagActions ⟨["x"], ""⟩
          [TagAction.setInput "b", TagAction.pressEnter, TagAction.removeTag "x"]).tags.Nodup
      ∧ ∀ t ∈ (runTagActions ⟨["x"], ""⟩
          [TagAction.setInput "b", TagAction.pressEnter, TagAction.removeTag "x"]).tags,
          t ∈ (["x"] : List String) ∨ ∃ s : String, t = s.trim ∧ s.trim ≠ "") :=
  ⟨by decide, claim_C10_tags_nodup ["x"]
    [TagAction.setInput "b", TagAction.pressEnter, TagAction.removeTag "x"] (by decide)⟩

end BlogApp
